import Mathlib

/-!
Shallow embedding of the `useFetchData` custom hook from
`src/src/hooks/useFetchData.jsx` and of the React runtime behaviour it
relies on (`useState` initial values, `useEffect` with a `[url]`
dependency array).

The hook keeps three pieces of state, created with
`useState(null) / useState(true) / useState(null)`:

  const [data, setData]     = useState(null);
  const [loading, setLoading] = useState(true);
  const [error, setError]   = useState(null);

Its `fetchData` routine is:

  setLoading(true);
  try {
    const response = await fetch(url, options);
    if (!response.ok) throw new Error("Failed to fetch data");
    const result = await response.json();
    setData(result);
  } catch (err) {
    setError(err.message);
  } finally {
    setLoading(false);
  }

The environment (network plus JSON engine) is modelled by a `FetchResult`
describing the outcome the code observes from `fetch` / `response.json()`,
and a decode function `String → Except String JSValue` standing for the
engine routine `response.json()` (its error message is the engine's own,
opaque to the hook code).
-/

/-- JavaScript values that `response.json()` can resolve to.  The JS value
`null` is a `JSValue` constructor: in the source, `data` starting as `null`
and `data` holding a parsed JSON `null` are the same JS value. -/
inductive JSValue : Type where
  | null : JSValue
  | bool (b : Bool) : JSValue
  | num (n : Int) : JSValue
  | str (s : String) : JSValue
  | arr (elems : List JSValue) : JSValue
  | obj (fields : List (String × JSValue)) : JSValue

/-- The hook's mutable state bundle: the three `useState` cells
`data`, `loading`, `error`.  `error` holds either JS `null` (`none`) or the
string stored by `setError(err.message)` (`some msg`). -/
structure FetchState : Type where
  data : JSValue
  loading : Bool
  error : Option String

/-- What the code reads off a resolved `fetch` response: the `ok` flag and
the raw body that `response.json()` would consume. -/
structure HttpResponse : Type where
  ok : Bool
  body : String

/-- Outcome of one `fetch(url, options)` call as the code observes it:
either the promise rejects (network failure, `err.message = msg`), or it
resolves with a response. -/
inductive FetchResult : Type where
  | reject (msg : String) : FetchResult
  | resolve (resp : HttpResponse) : FetchResult

/-- The JSON engine behind `response.json()`: maps a body to a parsed value
or to the message of the thrown SyntaxError. -/
abbrev JsonDecode : Type := String → Except String JSValue

/-- Request options (`headers`, `method`, `body` ...), forwarded verbatim
to `fetch`.  Modelled as an association list; the hook never inspects it. -/
abbrev FetchOptions : Type := List (String × String)

/-- The hook's state right after mount:
`useState(null)`, `useState(true)`, `useState(null)`. -/
def initState : FetchState :=
  { data := JSValue.null, loading := true, error := none }

/-- The synchronous prefix of `fetchData`: `setLoading(true)` runs before
the `await`.  Nothing else is written before the request settles — in
particular `error` is NOT cleared. -/
def fetchStart (s : FetchState) : FetchState :=
  { s with loading := true }

/-- The settlement of one `fetchData` body given the observed transport
outcome `tr`, starting from the state reached by `fetchStart`:
`try/catch/finally` of the source, line by line. -/
def settle (parse : JsonDecode) (tr : FetchResult) (s : FetchState) : FetchState :=
  match tr with
  | FetchResult.reject msg =>
      { s with error := some msg, loading := false }
  | FetchResult.resolve resp =>
      if resp.ok then
        match parse resp.body with
        | Except.ok result => { s with data := result, loading := false }
        | Except.error msg => { s with error := some msg, loading := false }
      else
        { s with error := some "Failed to fetch data", loading := false }

/-- One complete `fetchData()` invocation (mount effect, endpoint-change
effect, or manual `refetch`): start, then settle with outcome `tr`. -/
def fetchData (parse : JsonDecode) (tr : FetchResult) (s : FetchState) : FetchState :=
  settle parse tr (fetchStart s)

/-- One `useFetchData`-level invocation: the hook calls
`fetch(url, options)` with the caller's `url` and `options` forwarded
verbatim; `env` is the network, mapping that request to its outcome. -/
def invoke (env : String → FetchOptions → FetchResult) (parse : JsonDecode)
    (url : String) (options : FetchOptions) (s : FetchState) : FetchState :=
  fetchData parse (env url options) s

/-- Run a sequence of settled `fetchData` invocations from state `s`
(the hook's lifetime: mount effect, endpoint changes, refetches). -/
def runFrom (parse : JsonDecode) (s : FetchState) : List FetchResult → FetchState
  | [] => s
  | tr :: rest => runFrom parse (fetchData parse tr s) rest

/-- Run a sequence of settled invocations from the mount state. -/
def runTrace (parse : JsonDecode) (trace : List FetchResult) : FetchState :=
  runFrom parse initState trace

/-- Did this invocation take the success path (`setData` reached)?  That
needs `fetch` to resolve, `response.ok`, and `response.json()` to parse. -/
def isSuccess (parse : JsonDecode) : FetchResult → Bool
  | FetchResult.reject _ => false
  | FetchResult.resolve resp =>
      resp.ok &&
        match parse resp.body with
        | Except.ok _ => true
        | Except.error _ => false

/-- The parsed payload stored by `setData` on the success path, if any. -/
def payload (parse : JsonDecode) : FetchResult → Option JSValue
  | FetchResult.reject _ => none
  | FetchResult.resolve resp =>
      if resp.ok then
        match parse resp.body with
        | Except.ok v => some v
        | Except.error _ => none
      else none

/-- No invocation of the trace takes the success path. -/
def noSuccess (parse : JsonDecode) (trace : List FetchResult) : Prop :=
  ∀ tr ∈ trace, isSuccess parse tr = false

/-- Every invocation of the trace takes the success path. -/
def noFailure (parse : JsonDecode) (trace : List FetchResult) : Prop :=
  ∀ tr ∈ trace, isSuccess parse tr = true

/-- No success of the trace carries the JSON value `null` as payload. -/
def noNullPayload (parse : JsonDecode) (trace : List FetchResult) : Prop :=
  ∀ tr ∈ trace, payload parse tr ≠ some JSValue.null

/-- Exactly one of three conditions holds. -/
def exactlyOneOf (a b c : Prop) : Prop :=
  (a ∧ ¬b ∧ ¬c) ∨ (¬a ∧ b ∧ ¬c) ∨ (¬a ∧ ¬b ∧ c)

/-- The spec's FetchState invariant, as stated: exactly one of
`loading == true`, `error != null`, `data != null`. -/
def stateInvariant (s : FetchState) : Prop :=
  exactlyOneOf (s.loading = true) (s.error ≠ none) (s.data ≠ JSValue.null)

/-- Number of times the effect body (`fetchData()`) fires over later
renders, given the `url` of the last render that already fired it:
`useEffect(..., [url])` re-fires exactly when `url` differs from the
previous render's. -/
def effectRunsFrom (prev : String) : List String → Nat
  | [] => 0
  | u :: rest => (if u = prev then 0 else 1) + effectRunsFrom u rest

/-- Number of requests issued by `useEffect(() => fetchData(), [url])`
over a render sequence (oldest first): once on mount, then once per
render whose `url` differs from the previous render's. -/
def effectRuns : List String → Nat
  | [] => 0
  | u :: rest => 1 + effectRunsFrom u rest

/-- A concrete JSON engine for evaluating the model at concrete inputs:
decodes the two literal bodies used in examples and rejects anything else
with a V8-style SyntaxError message. -/
def demoParse : JsonDecode := fun body =>
  if body = "null" then Except.ok JSValue.null
  else if body = "[1,2]" then Except.ok (JSValue.arr [JSValue.num 1, JSValue.num 2])
  else Except.error "Unexpected end of JSON input"

/-- The url of the most recent render, given the url `prev` of the render
before the sequence started. -/
def lastRender (prev : String) : List String → String
  | [] => prev
  | u :: rest => lastRender u rest

/-- The `finally` block runs on every path: a settled invocation always has
`loading = false`. -/
theorem fetchData_loading (parse : JsonDecode) (tr : FetchResult) (s : FetchState) :
    (fetchData parse tr s).loading = false := by
  cases tr with
  | reject msg => rfl
  | resolve resp =>
      cases hok : resp.ok with
      | false => simp [fetchData, settle, fetchStart, hok]
      | true =>
          cases hp : parse resp.body with
          | ok v => simp [fetchData, settle, fetchStart, hok, hp]
          | error m => simp [fetchData, settle, fetchStart, hok, hp]

/-- `setData` is only reached on the success path; any failed invocation
leaves `data` untouched. -/
theorem fetchData_data_of_fail (parse : JsonDecode) (tr : FetchResult) (s : FetchState)
    (h : isSuccess parse tr = false) : (fetchData parse tr s).data = s.data := by
  cases tr with
  | reject msg => rfl
  | resolve resp =>
      cases hok : resp.ok with
      | false => simp [fetchData, settle, fetchStart, hok]
      | true =>
          cases hp : parse resp.body with
          | ok v => simp [isSuccess, hok, hp] at h
          | error m => simp [fetchData, settle, fetchStart, hok, hp]

/-- `setError` is only reached on failure paths; a successful invocation
leaves `error` untouched. -/
theorem fetchData_error_of_success (parse : JsonDecode) (tr : FetchResult) (s : FetchState)
    (h : isSuccess parse tr = true) : (fetchData parse tr s).error = s.error := by
  cases tr with
  | reject msg => simp [isSuccess] at h
  | resolve resp =>
      cases hok : resp.ok with
      | false => simp [isSuccess, hok] at h
      | true =>
          cases hp : parse resp.body with
          | ok v => simp [fetchData, settle, fetchStart, hok, hp]
          | error m => simp [isSuccess, hok, hp] at h

/-- `error` is never written back to null: every write is
`setError(err.message)` with a string message. -/
theorem fetchData_error_mono (parse : JsonDecode) (tr : FetchResult) (s : FetchState)
    (h : s.error ≠ none) : (fetchData parse tr s).error ≠ none := by
  cases tr with
  | reject msg => simp [fetchData, settle, fetchStart]
  | resolve resp =>
      cases hok : resp.ok with
      | false => simp [fetchData, settle, fetchStart, hok]
      | true =>
          cases hp : parse resp.body with
          | ok v => simpa [fetchData, settle, fetchStart, hok, hp] using h
          | error m => simp [fetchData, settle, fetchStart, hok, hp]

/-- Every settlement stores either an error message or a payload: if the
payload was not the JSON value null, the settled state has `error` set or
`data` non-null. -/
theorem fetchData_progress (parse : JsonDecode) (tr : FetchResult) (s : FetchState)
    (h : payload parse tr ≠ some JSValue.null) :
    (fetchData parse tr s).error ≠ none ∨ (fetchData parse tr s).data ≠ JSValue.null := by
  cases tr with
  | reject msg => left; simp [fetchData, settle, fetchStart]
  | resolve resp =>
      cases hok : resp.ok with
      | false => left; simp [fetchData, settle, fetchStart, hok]
      | true =>
          cases hp : parse resp.body with
          | ok v =>
              right
              simp [payload, hok, hp] at h
              simpa [fetchData, settle, fetchStart, hok, hp] using h
          | error m => left; simp [fetchData, settle, fetchStart, hok, hp]

/-- `fetchData` never reads `loading`: the settled state does not depend on
it. -/
theorem fetchData_loading_irrel (parse : JsonDecode) (tr : FetchResult) (d : JSValue)
    (b c : Bool) (e : Option String) :
    fetchData parse tr ⟨d, b, e⟩ = fetchData parse tr ⟨d, c, e⟩ := by
  rfl

/-- Any non-empty run of settled invocations ends with `loading = false`. -/
theorem runFrom_loading (parse : JsonDecode) :
    ∀ (trace : List FetchResult) (s : FetchState), trace ≠ [] →
      (runFrom parse s trace).loading = false := by
  intro trace
  induction trace with
  | nil => intro s h; exact absurd rfl h
  | cons tr rest ih =>
      intro s _
      show (runFrom parse (fetchData parse tr s) rest).loading = false
      cases rest with
      | nil => exact fetchData_loading parse tr s
      | cons tr2 rest2 => exact ih (fetchData parse tr s) (by simp)

/-- Once `error` is non-null it stays non-null over any run. -/
theorem runFrom_error_mono (parse : JsonDecode) :
    ∀ (trace : List FetchResult) (s : FetchState), s.error ≠ none →
      (runFrom parse s trace).error ≠ none := by
  intro trace
  induction trace with
  | nil => intro s h; exact h
  | cons tr rest ih =>
      intro s h
      exact ih (fetchData parse tr s) (fetchData_error_mono parse tr s h)

/-- A run of failed invocations leaves `data` unchanged. -/
theorem runFrom_data_of_noSuccess (parse : JsonDecode) :
    ∀ (trace : List FetchResult) (s : FetchState), noSuccess parse trace →
      (runFrom parse s trace).data = s.data := by
  intro trace
  induction trace with
  | nil => intro s _; rfl
  | cons tr rest ih =>
      intro s h
      have hhd : isSuccess parse tr = false := h tr (List.mem_cons_self tr rest)
      have htl : noSuccess parse rest := fun x hx => h x (List.mem_cons_of_mem tr hx)
      show (runFrom parse (fetchData parse tr s) rest).data = s.data
      rw [ih (fetchData parse tr s) htl]
      exact fetchData_data_of_fail parse tr s hhd

/-- A run of successful invocations leaves `error` unchanged. -/
theorem runFrom_error_of_noFailure (parse : JsonDecode) :
    ∀ (trace : List FetchResult) (s : FetchState), noFailure parse trace →
      (runFrom parse s trace).error = s.error := by
  intro trace
  induction trace with
  | nil => intro s _; rfl
  | cons tr rest ih =>
      intro s h
      have hhd : isSuccess parse tr = true := h tr (List.mem_cons_self tr rest)
      have htl : noFailure parse rest := fun x hx => h x (List.mem_cons_of_mem tr hx)
      show (runFrom parse (fetchData parse tr s) rest).error = s.error
      rw [ih (fetchData parse tr s) htl]
      exact fetchData_error_of_success parse tr s hhd

/-- At-least-one-of-three is preserved along any run whose successes never
carry the payload null. -/
theorem runFrom_progress (parse : JsonDecode) :
    ∀ (trace : List FetchResult) (s : FetchState), noNullPayload parse trace →
      (s.loading = true ∨ s.error ≠ none ∨ s.data ≠ JSValue.null) →
      ((runFrom parse s trace).loading = true ∨ (runFrom parse s trace).error ≠ none ∨
        (runFrom parse s trace).data ≠ JSValue.null) := by
  intro trace
  induction trace with
  | nil => intro s _ h; exact h
  | cons tr rest ih =>
      intro s h _
      have hhd : payload parse tr ≠ some JSValue.null := h tr (List.mem_cons_self tr rest)
      have htl : noNullPayload parse rest := fun x hx => h x (List.mem_cons_of_mem tr hx)
      refine ih (fetchData parse tr s) htl ?_
      rcases fetchData_progress parse tr s hhd with h1 | h1
      · exact Or.inr (Or.inl h1)
      · exact Or.inr (Or.inr h1)

/-- Appending a render: the effect fires again exactly when the new url
differs from the most recent render's url. -/
theorem effectRunsFrom_append (u : String) :
    ∀ (rs : List String) (prev : String),
      effectRunsFrom prev (rs ++ [u]) =
        effectRunsFrom prev rs + (if u = lastRender prev rs then 0 else 1) := by
  intro rs
  induction rs with
  | nil => intro prev; simp [effectRunsFrom, lastRender]
  | cons v rest ih =>
      intro prev
      show (if v = prev then 0 else 1) + effectRunsFrom v (rest ++ [u]) = _
      rw [ih v]
      simp only [effectRunsFrom, lastRender]
      exact (Nat.add_assoc _ _ _).symm

/-- C1 counterexample: the claim says each invocation clears `error` before
the request settles; in the code `fetchData` only runs `setLoading(true)`
before awaiting, so a previously stored error survives the start of the
invocation and even a successful settlement. -/
theorem C1_cex :
    (fetchStart ⟨JSValue.null, false, some "Failed to fetch data"⟩).error
        = some "Failed to fetch data" ∧
    (fetchData demoParse (FetchResult.resolve ⟨true, "[1,2]"⟩)
        ⟨JSValue.null, false, some "Failed to fetch data"⟩).error ≠ none := by
  refine ⟨rfl, ?_⟩
  intro h
  simp [fetchData, settle, fetchStart, demoParse] at h

/-- C1 (amended): on every invocation of the fetch routine (mount, endpoint
change, or manual refetch) the hook sets loading to true before the request
settles, but it does not clear `error`: both `error` and `data` keep their
previous values until settlement. -/
theorem C1_amended (s : FetchState) :
    (fetchStart s).loading = true ∧ (fetchStart s).error = s.error ∧
    (fetchStart s).data = s.data :=
  ⟨rfl, rfl, rfl⟩

/-- C2 counterexample: after a failed mount fetch followed by a successful
refetch, `error` is still set (it is never cleared) while `data` is
non-null and `loading` is false, so two of the three conditions hold at
once and the exactly-one invariant fails. -/
theorem C2_cex :
    ¬ stateInvariant (runTrace demoParse
        [FetchResult.resolve ⟨false, "x"⟩, FetchResult.resolve ⟨true, "[1,2]"⟩]) := by
  have hs : runTrace demoParse
        [FetchResult.resolve ⟨false, "x"⟩, FetchResult.resolve ⟨true, "[1,2]"⟩]
      = ⟨JSValue.arr [JSValue.num 1, JSValue.num 2], false,
          some "Failed to fetch data"⟩ := by rfl
  rw [hs]
  intro h
  rcases h with ⟨h1, -, -⟩ | ⟨-, -, h3⟩ | ⟨-, h2, -⟩
  · exact Bool.noConfusion h1
  · exact h3 (fun hx => JSValue.noConfusion hx)
  · exact h2 (fun hx => Option.noConfusion hx)

/-- C2 (amended): provided no successful settlement carried the JSON value
null as payload, every reachable state satisfies at least one of
`loading == true`, `error != null`, `data != null`, and every
post-settlement state has `loading == false`; the exactly-one version fails
because `error` is never cleared. -/
theorem C2_amended (parse : JsonDecode) (trace : List FetchResult)
    (h : noNullPayload parse trace) :
    ((runTrace parse trace).loading = true ∨ (runTrace parse trace).error ≠ none ∨
      (runTrace parse trace).data ≠ JSValue.null) ∧
    (trace ≠ [] → (runTrace parse trace).loading = false) := by
  refine ⟨runFrom_progress parse trace initState h (Or.inl rfl), ?_⟩
  intro hne
  exact runFrom_loading parse trace initState hne

/-- C2 witness: the amended invariant evaluated on the one-element trace of
a failed fetch. -/
theorem C2_w :
    ((runTrace demoParse [FetchResult.resolve ⟨false, "x"⟩]).loading = true ∨
      (runTrace demoParse [FetchResult.resolve ⟨false, "x"⟩]).error ≠ none ∨
      (runTrace demoParse [FetchResult.resolve ⟨false, "x"⟩]).data ≠ JSValue.null) ∧
    (runTrace demoParse [FetchResult.resolve ⟨false, "x"⟩]).loading = false := by
  have h := C2_amended demoParse [FetchResult.resolve ⟨false, "x"⟩] (by
    intro tr htr
    simp at htr
    subst htr
    simp [payload])
  exact ⟨h.1, h.2 (by simp)⟩

/-- C3 counterexample: a successful (ok) response with valid JSON settles
with the parsed data, but `error` is not null when a previous invocation
had failed: the code never clears `error`. -/
theorem C3_cex :
    (fetchData demoParse (FetchResult.resolve ⟨true, "[1,2]"⟩)
        ⟨JSValue.null, false, some "boom"⟩).data
      = JSValue.arr [JSValue.num 1, JSValue.num 2] ∧
    (fetchData demoParse (FetchResult.resolve ⟨true, "[1,2]"⟩)
        ⟨JSValue.null, false, some "boom"⟩).error ≠ none := by
  refine ⟨rfl, ?_⟩
  intro h
  simp [fetchData, settle, fetchStart, demoParse] at h

/-- C3 (amended): for every ok response whose body parses as JSON value B,
the invocation settles with `data == B`, `loading == false`, and `error`
unchanged from before the invocation (hence null on a fresh mount, but not
after an earlier failure). -/
theorem C3_amended (parse : JsonDecode) (resp : HttpResponse) (B : JSValue)
    (s : FetchState) (hok : resp.ok = true) (hp : parse resp.body = Except.ok B) :
    fetchData parse (FetchResult.resolve resp) s =
      { data := B, loading := false, error := s.error } := by
  simp [fetchData, settle, fetchStart, hok, hp]

/-- C3 witness: the spec scenario shape on a fresh mount — an ok response
with a JSON array body settles with that array, loading false, error
null. -/
theorem C3_w :
    fetchData demoParse (FetchResult.resolve ⟨true, "[1,2]"⟩) initState =
      { data := JSValue.arr [JSValue.num 1, JSValue.num 2], loading := false,
        error := none } :=
  C3_amended demoParse ⟨true, "[1,2]"⟩ (JSValue.arr [JSValue.num 1, JSValue.num 2])
    initState rfl rfl

/-- C4: every non-ok response settles with `data` unchanged, `loading`
false, and `error` set to a non-null message. -/
theorem C4_thm (parse : JsonDecode) (resp : HttpResponse) (s : FetchState)
    (hok : resp.ok = false) :
    (fetchData parse (FetchResult.resolve resp) s).data = s.data ∧
    (fetchData parse (FetchResult.resolve resp) s).loading = false ∧
    (fetchData parse (FetchResult.resolve resp) s).error ≠ none := by
  refine ⟨?_, ?_, ?_⟩ <;> simp [fetchData, settle, fetchStart, hok]

/-- C4 witness: a concrete non-ok response from the mount state. -/
theorem C4_w :
    (fetchData demoParse (FetchResult.resolve ⟨false, "x"⟩) initState).data
        = initState.data ∧
    (fetchData demoParse (FetchResult.resolve ⟨false, "x"⟩) initState).loading
        = false ∧
    (fetchData demoParse (FetchResult.resolve ⟨false, "x"⟩) initState).error
        ≠ none :=
  C4_thm demoParse ⟨false, "x"⟩ initState rfl

/-- C5 counterexample: on a non-ok response the code throws
`Error("Failed to fetch data")`, so the stored message is
"Failed to fetch data", not the claimed "request failed". -/
theorem C5_cex :
    (fetchData demoParse (FetchResult.resolve ⟨false, "x"⟩) initState).error
        = some "Failed to fetch data" ∧
    (fetchData demoParse (FetchResult.resolve ⟨false, "x"⟩) initState).error
        ≠ some "request failed" := by
  refine ⟨rfl, ?_⟩
  intro h
  have h2 : "Failed to fetch data" = "request failed" := Option.some.inj h
  exact absurd h2 (by decide)

/-- C5 (amended): a non-success status settles with the message
"Failed to fetch data" (the message the spec scenario states, not
step 3's "request failed"), and the body is indeed not parsed: the settled
state is independent of the body and of the JSON engine. -/
theorem C5_amended (parse1 parse2 : JsonDecode) (b1 b2 : String) (s : FetchState) :
    fetchData parse1 (FetchResult.resolve ⟨false, b1⟩) s =
      { s with error := some "Failed to fetch data", loading := false } ∧
    fetchData parse1 (FetchResult.resolve ⟨false, b1⟩) s =
      fetchData parse2 (FetchResult.resolve ⟨false, b2⟩) s :=
  ⟨rfl, rfl⟩

/-- C6 counterexample: on an ok response whose body fails to parse, the
code stores the parse exception's own message (for V8 on an empty body,
"Unexpected end of JSON input"), not the claimed "invalid payload". -/
theorem C6_cex :
    (fetchData demoParse (FetchResult.resolve ⟨true, ""⟩) initState).error
        = some "Unexpected end of JSON input" ∧
    (fetchData demoParse (FetchResult.resolve ⟨true, ""⟩) initState).error
        ≠ some "invalid payload" := by
  refine ⟨rfl, ?_⟩
  intro h
  have h2 : "Unexpected end of JSON input" = "invalid payload" := Option.some.inj h
  exact absurd h2 (by decide)

/-- C6 (amended): for every ok response whose body fails to parse with
engine message m, the invocation settles with `data` unchanged, `loading`
false, and `error == m` — the engine's message, not "invalid payload" —
which is distinct from the non-ok message whenever m differs from
"Failed to fetch data". -/
theorem C6_amended (parse : JsonDecode) (resp : HttpResponse) (m : String)
    (s : FetchState) (hok : resp.ok = true) (hp : parse resp.body = Except.error m)
    (hm : m ≠ "Failed to fetch data") :
    fetchData parse (FetchResult.resolve resp) s =
      { s with error := some m, loading := false } ∧
    (fetchData parse (FetchResult.resolve resp) s).error
      ≠ some "Failed to fetch data" := by
  have h1 : fetchData parse (FetchResult.resolve resp) s =
      { s with error := some m, loading := false } := by
    simp [fetchData, settle, fetchStart, hok, hp]
  refine ⟨h1, ?_⟩
  rw [h1]
  intro h
  exact hm (Option.some.inj h)

/-- C6 witness: an ok response with an unparseable empty body from the
mount state. -/
theorem C6_w :
    fetchData demoParse (FetchResult.resolve ⟨true, ""⟩) initState =
      { initState with
          error := some "Unexpected end of JSON input",
          loading := false } ∧
    (fetchData demoParse (FetchResult.resolve ⟨true, ""⟩) initState).error
      ≠ some "Failed to fetch data" :=
  C6_amended demoParse ⟨true, ""⟩ "Unexpected end of JSON input" initState rfl rfl
    (by decide)

/-- C7 counterexample: a refetch after a failed settlement, given a
successful response, does not resolve to the same state as a fresh
invocation: the stale error message is retained only on the refetch side. -/
theorem C7_cex :
    fetchData demoParse (FetchResult.resolve ⟨true, "[1,2]"⟩)
        (fetchData demoParse (FetchResult.resolve ⟨false, "x"⟩) initState) ≠
      fetchData demoParse (FetchResult.resolve ⟨true, "[1,2]"⟩) initState := by
  intro h
  have h2 : some "Failed to fetch data" = (none : Option String) :=
    congrArg FetchState.error h
  exact Option.noConfusion h2

/-- C7 (amended): refetch immediately re-enters `loading == true`, and its
settlement coincides with a fresh invocation's exactly when the hook has
not yet stored any data or error (`data == null`, `error == null`);
otherwise the retained `data`/`error` fields can make the two differ. -/
theorem C7_amended (parse : JsonDecode) (tr : FetchResult) (s : FetchState)
    (hd : s.data = JSValue.null) (he : s.error = none) :
    (fetchStart s).loading = true ∧
    fetchData parse tr s = fetchData parse tr initState := by
  refine ⟨rfl, ?_⟩
  have hs : s = ⟨JSValue.null, s.loading, none⟩ := by
    cases s
    simp_all
  rw [hs]
  exact fetchData_loading_irrel parse tr JSValue.null s.loading true none

/-- C7 witness: refetch from a pristine settled state agrees with a fresh
invocation on a concrete successful response. -/
theorem C7_w :
    (fetchStart ⟨JSValue.null, false, none⟩).loading = true ∧
    fetchData demoParse (FetchResult.resolve ⟨true, "[1,2]"⟩)
        ⟨JSValue.null, false, none⟩ =
      fetchData demoParse (FetchResult.resolve ⟨true, "[1,2]"⟩) initState :=
  C7_amended demoParse (FetchResult.resolve ⟨true, "[1,2]"⟩)
    ⟨JSValue.null, false, none⟩ rfl rfl

/-- C8: `useEffect(..., [url])` fires the request exactly once on mount,
and appending a render fires exactly one more request when its url differs
from the most recent render's url and none when it is identical. -/
theorem C8_thm (v : String) (rs : List String) (u : String) :
    effectRuns [v] = 1 ∧
    effectRuns (v :: (rs ++ [u])) =
      effectRuns (v :: rs) + (if u = lastRender v rs then 0 else 1) := by
  refine ⟨rfl, ?_⟩
  show 1 + effectRunsFrom v (rs ++ [u]) = _
  rw [effectRunsFrom_append u rs v]
  simp only [effectRuns]
  exact (Nat.add_assoc _ _ _).symm

/-- C9: `data` stays null until the first successful settlement, `error`
stays null until the first failed settlement, and the caller's url and
options are forwarded unmodified: the invocation depends on the network
only through its response at exactly (url, options). -/
theorem C9_thm (parse : JsonDecode) (t1 t2 : List FetchResult)
    (env1 env2 : String → FetchOptions → FetchResult) (url : String)
    (options : FetchOptions) (s : FetchState)
    (h1 : noSuccess parse t1) (h2 : noFailure parse t2)
    (henv : env1 url options = env2 url options) :
    (runTrace parse t1).data = JSValue.null ∧
    (runTrace parse t2).error = none ∧
    invoke env1 parse url options s = invoke env2 parse url options s := by
  refine ⟨?_, ?_, ?_⟩
  · exact runFrom_data_of_noSuccess parse t1 initState h1
  · exact runFrom_error_of_noFailure parse t2 initState h2
  · simp only [invoke, henv]

/-- C9 witness: a failure-only trace keeps data null, a success-only trace
keeps error null, and two identical transports yield identical
invocations. -/
theorem C9_w :
    (runTrace demoParse [FetchResult.resolve ⟨false, "x"⟩]).data = JSValue.null ∧
    (runTrace demoParse [FetchResult.resolve ⟨true, "[1,2]"⟩]).error = none ∧
    invoke (fun _ _ => FetchResult.resolve ⟨true, "null"⟩) demoParse "u" [] initState =
      invoke (fun _ _ => FetchResult.resolve ⟨true, "null"⟩) demoParse "u" [] initState :=
  C9_thm demoParse [FetchResult.resolve ⟨false, "x"⟩]
    [FetchResult.resolve ⟨true, "[1,2]"⟩]
    (fun _ _ => FetchResult.resolve ⟨true, "null"⟩)
    (fun _ _ => FetchResult.resolve ⟨true, "null"⟩) "u" [] initState
    (by intro tr htr; simp at htr; subst htr; rfl)
    (by intro tr htr; simp at htr; subst htr; rfl)
    rfl

/-- C10: two independent monotonicity facts, each over its own state.
From any state `s1` whose `error` is non-null (`data` may still be null,
as right after a first failed fetch), the start of an invocation and any
sequence of settlements — successes included, since `setError(null)` never
occurs — keep `error` non-null.  From any state `s2` whose `data` is
non-null (`error` may still be null, as right after a first success), the
start of an invocation and any sequence of failed settlements leave `data`
unchanged and non-null. -/
theorem C10_thm (parse : JsonDecode) (s1 s2 : FetchState) (t1 t2 : List FetchResult)
    (he : s1.error ≠ none) (hd : s2.data ≠ JSValue.null)
    (hfail : noSuccess parse t2) :
    (runFrom parse s1 t1).error ≠ none ∧
    (fetchStart s1).error = s1.error ∧
    (runFrom parse s2 t2).data = s2.data ∧
    (runFrom parse s2 t2).data ≠ JSValue.null ∧
    (fetchStart s2).data = s2.data := by
  have hpres := runFrom_data_of_noSuccess parse t2 s2 hfail
  refine ⟨runFrom_error_mono parse t1 s1 he, rfl, hpres, ?_, rfl⟩
  rw [hpres]
  exact hd

/-- C10 witness, at the claim's canonical states: after a first failure
(`data` still null, `error` set) a successful refetch keeps `error`
non-null; after a first success (`error` still null, `data` set) a failed
refetch keeps the data. -/
theorem C10_w :
    (runFrom demoParse ⟨JSValue.null, false, some "Failed to fetch data"⟩
        [FetchResult.resolve ⟨true, "[1,2]"⟩]).error ≠ none ∧
    (fetchStart ⟨JSValue.null, false, some "Failed to fetch data"⟩).error
        = some "Failed to fetch data" ∧
    (runFrom demoParse ⟨JSValue.str "d", false, none⟩
        [FetchResult.resolve ⟨false, "x"⟩]).data = JSValue.str "d" ∧
    (runFrom demoParse ⟨JSValue.str "d", false, none⟩
        [FetchResult.resolve ⟨false, "x"⟩]).data ≠ JSValue.null ∧
    (fetchStart ⟨JSValue.str "d", false, none⟩).data = JSValue.str "d" :=
  C10_thm demoParse ⟨JSValue.null, false, some "Failed to fetch data"⟩
    ⟨JSValue.str "d", false, none⟩
    [FetchResult.resolve ⟨true, "[1,2]"⟩] [FetchResult.resolve ⟨false, "x"⟩]
    (fun h => Option.noConfusion h) (fun h => JSValue.noConfusion h)
    (by intro tr htr; simp at htr; subst htr; rfl)
